import Mathlib

/-!
Verification of the nearest-centroid proximity classification pipeline from
`src/Python/wind-turbine-proximity/windfarm.ipynb`.

The notebook is a linear geopandas script:

  turbines = gpd.read_file("wind_turbines.geojson").explode(index_parts=False)
  cities   = gpd.read_file("bezirksgrenzen.geojson").explode(index_parts=False)
  turbines = turbines.to_crs(epsg=3857)
  cities   = cities.to_crs(epsg=3857)
  cities['centroid'] = cities.geometry.centroid
  turbines['nearest_dist'] = turbines.geometry.apply(
      lambda x: cities['centroid'].distance(x).min() / 1000)
  close_turbines = turbines[turbines['nearest_dist'] <= 5]
  close_turbines = close_turbines.to_crs(epsg=4326)
  -- marker color: 'red' if dist < 2 else 'orange'
  -- summary: len / .mean() / .min() / .max() over close_turbines['nearest_dist']

The embedding below mirrors that pipeline over lists of records.  Planar
coordinates are real numbers; the pandas missing value NaN (which arises as
`Series.min()` of an empty series and propagates through `/ 1000`) is
modelled as `Option.none`, and the pandas skip-NaN aggregation semantics of
`.mean() / .min() / .max()` as aggregation over the present values.  The
EPSG:4326 → EPSG:3857 reprojection performed by `to_crs` is the external
pyproj library; the pipeline is therefore parametrised by the projection
map `proj`, which the notebook instantiates with the Web-Mercator forward
map `webMercator` (and `webMercatorInv` for the final `to_crs(epsg=4326)`).
-/

/-- A planar 2-D coordinate pair (a shapely `Point`); in the notebook the
coordinates are geographic degrees before `to_crs` and meters after. -/
structure Pt where
  x : ℝ
  y : ℝ

/-- A single-part polygon boundary, as its ring of vertices. -/
abbrev Polygon := List Pt

/-- A possibly multi-part geometry: the list of its single-part pieces
(one entry per disjoint polygon of a shapely `MultiPolygon`). -/
abbrev Region := List Polygon

/-- Planar Euclidean distance in the coordinate units (meters after
reprojection): shapely `a.distance(b)` on points. -/
noncomputable def dist2D (a b : Pt) : ℝ :=
  Real.sqrt ((a.x - b.x) ^ 2 + (a.y - b.y) ^ 2)

/-- GeoDataFrame `.explode(index_parts=False)` on the region table: each
multi-part geometry is replaced by one row per single-part piece, in order. -/
def explode (regions : List Region) : List Polygon :=
  regions.flatten

/-- Consecutive vertex pairs of a polygon ring, wrapping around. -/
def ringEdges (p : Polygon) : List (Pt × Pt) :=
  p.zip (p.rotate 1)

/-- Cross term `x_i * y_j - x_j * y_i` of one ring edge (shoelace formula). -/
noncomputable def cross (e : Pt × Pt) : ℝ :=
  e.1.x * e.2.y - e.2.x * e.1.y

/-- Twice the signed shoelace area of a polygon ring. -/
noncomputable def shoelace (p : Polygon) : ℝ :=
  ((ringEdges p).map cross).sum

/-- Area-weighted planar centroid of a polygon (`GeoSeries.centroid` on a
single-part polygon, by the standard shoelace centroid formula). -/
noncomputable def centroid (p : Polygon) : Pt :=
  ⟨((ringEdges p).map (fun e => (e.1.x + e.2.x) * cross e)).sum / (3 * shoelace p),
   ((ringEdges p).map (fun e => (e.1.y + e.2.y) * cross e)).sum / (3 * shoelace p)⟩

/-- Earth radius (meters) of the EPSG:3857 spherical model. -/
noncomputable def earthRadius : ℝ := 6378137

/-- Forward Web-Mercator map EPSG:4326 → EPSG:3857 (degrees to meters):
the projection applied by `to_crs(epsg=3857)`. -/
noncomputable def webMercator (p : Pt) : Pt :=
  ⟨earthRadius * (p.x * Real.pi / 180),
   earthRadius * Real.log (Real.tan (Real.pi / 4 + p.y * Real.pi / 360))⟩

/-- Inverse Web-Mercator map EPSG:3857 → EPSG:4326 (meters to degrees):
the projection applied by the final `to_crs(epsg=4326)`. -/
noncomputable def webMercatorInv (p : Pt) : Pt :=
  ⟨p.x / earthRadius * 180 / Real.pi,
   (2 * Real.arctan (Real.exp (p.y / earthRadius)) - Real.pi / 2) * 180 / Real.pi⟩

/-- `to_crs` on a point series: the projection map applied to every geometry. -/
def to_crs (proj : Pt → Pt) (pts : List Pt) : List Pt :=
  pts.map proj

/-- `to_crs` on one polygon: the projection map applied to every vertex. -/
def to_crs_poly (proj : Pt → Pt) (p : Polygon) : Polygon :=
  p.map proj

/-- The series `cities['centroid'].distance(x)` followed by `.min() / 1000`:
the minimum over all centroids of the planar distance to `x`, in kilometers.
`none` models the NaN produced by `.min()` on an empty series. -/
noncomputable def nearestDist (cents : List Pt) (x : Pt) : Option ℝ :=
  ((cents.map (fun c => dist2D c x)).min?).map (fun m => m / 1000)

/-- One row of the `turbines` GeoDataFrame after the `nearest_dist` column
assignment: the (projected) point geometry and its nearest-centroid distance
in kilometers (`none` models NaN). -/
structure TurbineRow where
  geometry : Pt
  nearest_dist : Option ℝ

/-- The column assignment
`turbines['nearest_dist'] = turbines.geometry.apply(lambda x: ...)`:
every point receives its nearest-centroid distance; no row is added or
dropped. -/
noncomputable def assignDistances (cents : List Pt) (turbines : List Pt) :
    List TurbineRow :=
  turbines.map (fun p => ⟨p, nearestDist cents p⟩)

/-- The boolean mask `turbines['nearest_dist'] <= thresholdKm` on one row;
pandas comparison with NaN is `False`, so a `none` distance is never kept.
The notebook instantiates `thresholdKm = 5`. -/
noncomputable def keepRow (thresholdKm : ℝ) (r : TurbineRow) : Bool :=
  match r.nearest_dist with
  | none => false
  | some d => decide (d ≤ thresholdKm)

/-- The threshold filter `close_turbines = turbines[turbines['nearest_dist'] <= t]`. -/
noncomputable def close_turbines (thresholdKm : ℝ) (rows : List TurbineRow) :
    List TurbineRow :=
  rows.filter (keepRow thresholdKm)

/-- The marker color chosen inside the rendering loop:
`'red' if dist < nearBandKm else 'orange'`.  `"red"` is the "near" band and
`"orange"` the "moderate" band; the notebook instantiates `nearBandKm = 2`. -/
noncomputable def color (nearBandKm d : ℝ) : String :=
  if d < nearBandKm then "red" else "orange"

/-- The `nearest_dist` column of a row list as a float series: the present
(non-NaN) values, in row order.  Pandas aggregations skip NaN, so they are
aggregations of this list. -/
def distCol (rows : List TurbineRow) : List ℝ :=
  rows.filterMap (fun r => r.nearest_dist)

/-- Pandas `Series.mean()`: NaN (`none`) on an empty series, else the
arithmetic mean. -/
noncomputable def seriesMean (xs : List ℝ) : Option ℝ :=
  if xs.isEmpty then none else some (xs.sum / xs.length)

/-- Pandas `Series.min()`: NaN (`none`) on an empty series, else the minimum. -/
noncomputable def seriesMin (xs : List ℝ) : Option ℝ :=
  xs.min?

/-- Pandas `Series.max()`: NaN (`none`) on an empty series, else the maximum. -/
noncomputable def seriesMax (xs : List ℝ) : Option ℝ :=
  xs.max?

/-- `len(close_turbines)` of the final summary cell. -/
noncomputable def summaryCount (rows : List TurbineRow) : ℕ :=
  (close_turbines 5 rows).length

/-- `close_turbines['nearest_dist'].mean()` of the final summary cell. -/
noncomputable def summaryMean (rows : List TurbineRow) : Option ℝ :=
  seriesMean (distCol (close_turbines 5 rows))

/-- `close_turbines['nearest_dist'].min()` of the final summary cell. -/
noncomputable def summaryMin (rows : List TurbineRow) : Option ℝ :=
  seriesMin (distCol (close_turbines 5 rows))

/-- `close_turbines['nearest_dist'].max()` of the final summary cell. -/
noncomputable def summaryMax (rows : List TurbineRow) : Option ℝ :=
  seriesMax (distCol (close_turbines 5 rows))

/-- The centroid list `cities['centroid']`: the region table exploded into
single parts, reprojected, then centroided per part. -/
noncomputable def cityCentroids (proj : Pt → Pt) (cities_raw : List Region) :
    List Pt :=
  ((explode cities_raw).map (to_crs_poly proj)).map centroid

/-- The distance-assignment portion of the notebook as one function of the
raw geographic inputs: explode, reproject both tables with `proj`
(`to_crs(epsg=3857)` in the notebook), centroid the region parts, and assign
every point its nearest-centroid distance. -/
noncomputable def pipeline (proj : Pt → Pt) (turbines_raw : List Pt)
    (cities_raw : List Region) : List TurbineRow :=
  assignDistances (cityCentroids proj cities_raw) (to_crs proj turbines_raw)

/-- `close_turbines.to_crs(epsg=4326)`: `to_crs` on a GeoDataFrame reprojects
the geometry column and leaves every attribute column unchanged. -/
def to_crs_rows (proj : Pt → Pt) (rows : List TurbineRow) : List TurbineRow :=
  rows.map (fun r => ⟨proj r.geometry, r.nearest_dist⟩)

/-- The number of retained (mapped) points: `len(close_turbines)` as a
function of the threshold. -/
noncomputable def retainedCount (thresholdKm : ℝ) (rows : List TurbineRow) : ℕ :=
  (close_turbines thresholdKm rows).length

/-- The number of retained points drawn in the "near" band (`"red"` markers):
retained distances strictly below `nearBandKm`. -/
noncomputable def nearCount (nearBandKm : ℝ) (rows : List TurbineRow) : ℕ :=
  (distCol (close_turbines 5 rows)).countP (fun d => decide (d < nearBandKm))

/-! ### Helper lemmas -/

instance : Std.Antisymm (fun a b : ℝ => a ≤ b) :=
  ⟨fun h h' => le_antisymm h h'⟩

lemma real_min?_eq_some_iff {m : ℝ} {xs : List ℝ} :
    xs.min? = some m ↔ m ∈ xs ∧ ∀ b ∈ xs, m ≤ b :=
  List.min?_eq_some_iff (fun _ => le_refl _) min_choice (fun _ _ _ => le_min_iff)

lemma min?_isSome_of_ne_nil {xs : List ℝ} (h : xs ≠ []) :
    ∃ m, xs.min? = some m := by
  cases hx : xs.min? with
  | none => exact absurd (List.min?_eq_none_iff.mp hx) h
  | some m => exact ⟨m, rfl⟩

/-- The `nearest_dist` column of the filtered frame is exactly the filter of
the full `nearest_dist` column by the threshold predicate. -/
lemma distCol_close_turbines (t : ℝ) (rows : List TurbineRow) :
    distCol (close_turbines t rows)
      = (distCol rows).filter (fun d => decide (d ≤ t)) := by
  induction rows with
  | nil => rfl
  | cons r l ih =>
    cases hr : r.nearest_dist with
    | none =>
      have hk : keepRow t r = false := by simp [keepRow, hr]
      simpa [close_turbines, distCol, List.filter_cons, List.filterMap_cons, hr, hk]
        using ih
    | some d =>
      have hk : keepRow t r = decide (d ≤ t) := by simp [keepRow, hr]
      cases hd : decide (d ≤ t) with
      | false =>
        simpa [close_turbines, distCol, List.filter_cons, List.filterMap_cons, hr, hk, hd]
          using ih
      | true =>
        simpa [close_turbines, distCol, List.filter_cons, List.filterMap_cons, hr, hk, hd]
          using ih

/-- C2 helper: row `r` is in every pipeline output as the image of its point. -/
lemma mem_pipeline_iff {proj : Pt → Pt} {tr : List Pt} {cr : List Region}
    {r : TurbineRow} :
    r ∈ pipeline proj tr cr ↔
      ∃ p ∈ tr, TurbineRow.mk (proj p) (nearestDist (cityCentroids proj cr) (proj p)) = r := by
  simp [pipeline, assignDistances, to_crs, List.mem_map]

/-! ### Claims -/

/-- C2: for every point sequence, every region sequence and every projection,
the distance-computation stage produces exactly one result row per input
point (no point is dropped), and the threshold filter acts afterwards on
that full row list, selecting a sublist of it. -/
theorem proximity_row_count_preserved (proj : Pt → Pt) (tr : List Pt)
    (cr : List Region) (t : ℝ) :
    (pipeline proj tr cr).length = tr.length ∧
    (close_turbines t (pipeline proj tr cr)).Sublist (pipeline proj tr cr) := by
  constructor
  · simp [pipeline, assignDistances, to_crs]
  · exact List.filter_sublist _

/-- C3: each summary statistic is computed over exactly the sub-series of
distances that are at or below the 5 km threshold: the mean is the
arithmetic mean of that filtered series, and min/max are its extrema —
never aggregates of the full unfiltered column. -/
theorem summary_over_filtered_subset (rows : List TurbineRow) :
    summaryMean rows = seriesMean ((distCol rows).filter (fun d => decide (d ≤ 5))) ∧
    summaryMin rows = seriesMin ((distCol rows).filter (fun d => decide (d ≤ 5))) ∧
    summaryMax rows = seriesMax ((distCol rows).filter (fun d => decide (d ≤ 5))) := by
  refine ⟨?_, ?_, ?_⟩ <;>
    simp [summaryMean, summaryMin, summaryMax, distCol_close_turbines]

/-- C4: a row whose distance is exactly the threshold passes the inclusive
filter `nearest_dist <= thresholdKm`, and a distance exactly at the near
band bound is colored `"orange"` (the "moderate" band), not `"red"` (the
"near" band), since the near band is the strict inequality `dist < nearBandKm`. -/
theorem boundary_inclusive_threshold_strict_near (t nb : ℝ) (r : TurbineRow)
    (h : r.nearest_dist = some t) :
    keepRow t r = true ∧ color nb nb = "orange" := by
  constructor
  · simp [keepRow, h]
  · simp [color]

/-- Witness for C4 at the notebook values: a 5 km row is retained by the
5 km filter, and a 2 km distance is colored orange. -/
theorem boundary_inclusive_threshold_strict_near_witness :
    keepRow 5 ⟨⟨0, 0⟩, some 5⟩ = true ∧ color 2 2 = "orange" :=
  boundary_inclusive_threshold_strict_near 5 2 ⟨⟨0, 0⟩, some 5⟩ rfl

/-- C10: reprojecting a row table (in particular the retained subset sent to
the renderer) changes only the geometry column: the `nearest_dist` column,
the derived band colors, and the row count are unchanged. -/
theorem reprojection_preserves_distances (proj : Pt → Pt)
    (rows : List TurbineRow) :
    (to_crs_rows proj rows).map (fun r => r.nearest_dist)
        = rows.map (fun r => r.nearest_dist) ∧
    (to_crs_rows proj rows).map (fun r => r.nearest_dist.map (color 2))
        = rows.map (fun r => r.nearest_dist.map (color 2)) ∧
    (to_crs_rows proj rows).length = rows.length := by
  refine ⟨?_, ?_, ?_⟩ <;> simp [to_crs_rows]

/-- C6: if every computed distance exceeds the 5 km threshold, the retained
subset is empty and the summary reports count 0 with mean, min and max all
the explicit absent value (NaN, modelled as `none`) — not zero, and with no
exception: every summary function is total. -/
theorem empty_retained_subset_stats (rows : List TurbineRow)
    (h : ∀ d ∈ distCol rows, 5 < d) :
    summaryCount rows = 0 ∧ summaryMean rows = none ∧
    summaryMin rows = none ∧ summaryMax rows = none := by
  have hcl : close_turbines 5 rows = [] := by
    rw [close_turbines, List.filter_eq_nil_iff]
    intro r hr
    cases hd : r.nearest_dist with
    | none => simp [keepRow, hd]
    | some d =>
      have hmem : d ∈ distCol rows := List.mem_filterMap.mpr ⟨r, hr, hd⟩
      have h5 := h d hmem
      simp only [keepRow, hd, decide_eq_true_eq]
      exact not_le.mpr h5
  refine ⟨?_, ?_, ?_, ?_⟩ <;>
    simp [summaryCount, summaryMean, summaryMin, summaryMax, hcl, distCol,
      seriesMean, seriesMin, seriesMax]

/-- Witness for C6: a single row at 6 km yields count 0 and absent
mean/min/max. -/
theorem empty_retained_subset_stats_witness :
    summaryCount [⟨⟨0, 0⟩, some 6⟩] = 0 ∧ summaryMean [⟨⟨0, 0⟩, some 6⟩] = none ∧
    summaryMin [⟨⟨0, 0⟩, some 6⟩] = none ∧ summaryMax [⟨⟨0, 0⟩, some 6⟩] = none :=
  empty_retained_subset_stats [⟨⟨0, 0⟩, some 6⟩]
    (by norm_num [distCol, List.filterMap_cons])

/-- C7: lowering the retention threshold never increases the number of
retained rows, and lowering the near-band bound never increases the number
of retained rows colored `"red"` ("near"): both counts are monotone in
their threshold. -/
theorem threshold_monotonicity (t t' nb nb' : ℝ) (rows : List TurbineRow)
    (ht : t' ≤ t) (hnb : nb' ≤ nb) :
    retainedCount t' rows ≤ retainedCount t rows ∧
    nearCount nb' rows ≤ nearCount nb rows := by
  constructor
  · rw [retainedCount, retainedCount, close_turbines, close_turbines,
      ← List.countP_eq_length_filter, ← List.countP_eq_length_filter]
    apply List.countP_mono_left
    intro r _ hkeep
    cases hd : r.nearest_dist with
    | none => simp [keepRow, hd] at hkeep
    | some d =>
      simp only [keepRow, hd, decide_eq_true_eq] at hkeep ⊢
      exact le_trans hkeep ht
  · rw [nearCount, nearCount]
    apply List.countP_mono_left
    intro d _ hd
    simp only [decide_eq_true_eq] at hd ⊢
    exact lt_of_lt_of_le hd hnb

/-- Witness for C7 at thresholds 5 → 4 and near bands 2 → 1 on a one-row
table. -/
theorem threshold_monotonicity_witness :
    retainedCount 4 [⟨⟨0, 0⟩, some 3⟩] ≤ retainedCount 5 [⟨⟨0, 0⟩, some 3⟩] ∧
    nearCount 1 [⟨⟨0, 0⟩, some 3⟩] ≤ nearCount 2 [⟨⟨0, 0⟩, some 3⟩] :=
  threshold_monotonicity 5 4 2 1 [⟨⟨0, 0⟩, some 3⟩] (by norm_num) (by norm_num)

/-- C5 counterexample: with an empty region table the notebook does not fail
with an error — `Series.min()` over the empty centroid series is NaN, so the
pipeline still emits one result row per point, carrying the NaN (absent)
distance, contradicting "fails with an error (no partial or NaN results are
produced)". -/
theorem empty_regions_error_counterexample :
    pipeline id [⟨0, 0⟩] [] = [⟨⟨0, 0⟩, none⟩] := by
  simp [pipeline, cityCentroids, explode, to_crs, to_crs_poly, assignDistances,
    nearestDist]

/-- C5 amended: with an empty region sequence the code raises no error; it
produces one row per point whose `nearest_dist` is the absent value NaN
(modelled `none`), so the threshold filter retains nothing. -/
theorem empty_regions_nan_distances (proj : Pt → Pt) (tr : List Pt) :
    (pipeline proj tr []).length = tr.length ∧
    (∀ r ∈ pipeline proj tr [], r.nearest_dist = none) ∧
    close_turbines 5 (pipeline proj tr []) = [] := by
  refine ⟨by simp [pipeline, assignDistances, to_crs], ?_, ?_⟩
  · intro r hr
    rcases mem_pipeline_iff.mp hr with ⟨p, _, rfl⟩
    simp [nearestDist, cityCentroids, explode]
  · rw [close_turbines, List.filter_eq_nil_iff]
    intro r hr
    rcases mem_pipeline_iff.mp hr with ⟨p, _, rfl⟩
    simp [keepRow, nearestDist, cityCentroids, explode]

/-- Witness for the amended C5 on a one-point table. -/
theorem empty_regions_nan_distances_witness :
    (pipeline id [⟨0, 0⟩] []).length = [(⟨0, 0⟩ : Pt)].length ∧
    (TurbineRow.mk ⟨0, 0⟩ (nearestDist (cityCentroids id []) ⟨0, 0⟩)).nearest_dist
      = none ∧
    close_turbines 5 (pipeline id [⟨0, 0⟩] []) = [] := by
  obtain ⟨h1, h2, h3⟩ := empty_regions_nan_distances id [⟨0, 0⟩]
  refine ⟨h1, h2 _ ?_, h3⟩
  simp [pipeline, assignDistances, to_crs, cityCentroids, explode]

/-! ### Concrete test geometry for witnesses -/

/-- A 2 m × 2 m square polygon with corners `(0,0),(2,0),(2,2),(0,2)`;
its area-weighted centroid is `(1, 1)`. -/
def squareA : Polygon := [⟨0, 0⟩, ⟨2, 0⟩, ⟨2, 2⟩, ⟨0, 2⟩]

/-- The same square translated 10 m east, a second disjoint part. -/
def squareB : Polygon := [⟨10, 0⟩, ⟨12, 0⟩, ⟨12, 2⟩, ⟨10, 2⟩]

lemma ringEdges_sq :
    ringEdges squareA
      = [(⟨0, 0⟩, ⟨2, 0⟩), (⟨2, 0⟩, ⟨2, 2⟩), (⟨2, 2⟩, ⟨0, 2⟩), (⟨0, 2⟩, ⟨0, 0⟩)] :=
  rfl

lemma centroid_sq : centroid squareA = ⟨1, 1⟩ := by
  norm_num [centroid, shoelace, ringEdges_sq, cross, Pt.mk.injEq]

lemma dist2D_vert : dist2D ⟨1, 1⟩ ⟨1, 5001⟩ = 5000 := by
  show Real.sqrt (((1:ℝ) - 1) ^ 2 + ((1:ℝ) - 5001) ^ 2) = 5000
  rw [show ((1:ℝ) - 1) ^ 2 + ((1:ℝ) - 5001) ^ 2 = 5000 ^ 2 by norm_num]
  exact Real.sqrt_sq (by norm_num)

lemma cityCentroids_sq : cityCentroids id [[squareA]] = [⟨1, 1⟩] := by
  simp [cityCentroids, explode, to_crs_poly, centroid_sq]

lemma pipeline_sq :
    pipeline id [⟨1, 5001⟩] [[squareA]] = [⟨⟨1, 5001⟩, some 5⟩] := by
  simp [pipeline, cityCentroids_sq, assignDistances, to_crs, nearestDist,
    List.min?, dist2D_vert]
  norm_num

/-- C8: region geometries are exploded into single parts before centroid
computation: the centroid list has one entry per single-part piece (its
length is the total part count, not the region count), and every part of
every multi-part region contributes its own centroid to the list that the
nearest-centroid minimum ranges over. -/
theorem explode_before_centroids (proj : Pt → Pt) (cities_raw : List Region) :
    (cityCentroids proj cities_raw).length = (cities_raw.map List.length).sum ∧
    ∀ R ∈ cities_raw, ∀ part ∈ R,
      centroid (to_crs_poly proj part) ∈ cityCentroids proj cities_raw := by
  constructor
  · simp [cityCentroids, explode, Function.comp_def]
  · intro R hR part hpart
    have hmem : part ∈ explode cities_raw := List.mem_flatten.mpr ⟨R, hR, hpart⟩
    exact List.mem_map.mpr ⟨to_crs_poly proj part,
      List.mem_map.mpr ⟨part, hmem, rfl⟩, rfl⟩

/-- Witness for C8: a region of two disjoint square parts yields two
per-part centroids, and the first part's centroid is in the list. -/
theorem explode_before_centroids_witness :
    (cityCentroids id [[squareA, squareB]]).length
      = ([[squareA, squareB]].map List.length).sum ∧
    centroid (to_crs_poly id squareA) ∈ cityCentroids id [[squareA, squareB]] := by
  obtain ⟨h1, h2⟩ := explode_before_centroids id [[squareA, squareB]]
  exact ⟨h1, h2 [squareA, squareB] (List.mem_singleton.mpr rfl) squareA
    (List.mem_cons_self _ _)⟩

/-- C9: every distance the pipeline assigns is non-negative, and the
distance stage consumes only the reprojected geometries: it is exactly the
assignment over the projected point series against centroids of the
projected region parts, both in the same planar system `proj`. -/
theorem distances_nonneg_after_projection (proj : Pt → Pt) (tr : List Pt)
    (cr : List Region) :
    (∀ r ∈ pipeline proj tr cr, ∀ d, r.nearest_dist = some d → 0 ≤ d) ∧
    pipeline proj tr cr
      = assignDistances (cityCentroids proj cr) (to_crs proj tr) := by
  refine ⟨?_, rfl⟩
  intro r hr d hd
  rcases mem_pipeline_iff.mp hr with ⟨p, _, rfl⟩
  simp only [nearestDist, Option.map_eq_some'] at hd
  rcases hd with ⟨m, hm, hd⟩
  have hmem := List.min?_mem min_choice hm
  rcases List.mem_map.mp hmem with ⟨c, _, hc⟩
  rw [← hd, ← hc]
  exact div_nonneg (Real.sqrt_nonneg _) (by norm_num)

/-- Witness for C9: the square region with a point 5000 m above its
centroid yields the non-negative distance 5 km. -/
theorem distances_nonneg_after_projection_witness :
    (0:ℝ) ≤ 5 ∧
    pipeline id [⟨1, 5001⟩] [[squareA]]
      = assignDistances (cityCentroids id [[squareA]]) (to_crs id [⟨1, 5001⟩]) := by
  obtain ⟨h1, h2⟩ := distances_nonneg_after_projection id [⟨1, 5001⟩] [[squareA]]
  refine ⟨h1 ⟨⟨1, 5001⟩, some 5⟩ ?_ 5 rfl, h2⟩
  rw [pipeline_sq]
  exact List.mem_singleton.mpr rfl

/-- C1: for every point and every non-empty region sequence (each region
having at least one part), the assigned `nearest_dist` is present and is the
minimum over all region-part centroids of the planar Euclidean distance in
meters divided by 1000: it is attained at some centroid and bounds every
centroid's converted distance from below. -/
theorem nearest_dist_is_min_over_centroids (proj : Pt → Pt) (tr : List Pt)
    (regions : List Region) (hne : regions ≠ [])
    (hparts : ∀ R ∈ regions, R ≠ []) :
    ∀ r ∈ pipeline proj tr regions, ∃ d, r.nearest_dist = some d ∧
      (∃ c ∈ cityCentroids proj regions, d = dist2D c r.geometry / 1000) ∧
      ∀ c ∈ cityCentroids proj regions, d ≤ dist2D c r.geometry / 1000 := by
  intro r hr
  rcases mem_pipeline_iff.mp hr with ⟨p, _, rfl⟩
  have hcne : cityCentroids proj regions ≠ [] := by
    rcases List.exists_mem_of_ne_nil regions hne with ⟨R, hR⟩
    rcases List.exists_mem_of_ne_nil R (hparts R hR) with ⟨part, hpart⟩
    have hmem : part ∈ explode regions := List.mem_flatten.mpr ⟨R, hR, hpart⟩
    exact List.ne_nil_of_mem (List.mem_map.mpr ⟨to_crs_poly proj part,
      List.mem_map.mpr ⟨part, hmem, rfl⟩, rfl⟩)
  have hdne : (cityCentroids proj regions).map (fun c => dist2D c (proj p)) ≠ [] := by
    simpa using hcne
  rcases min?_isSome_of_ne_nil hdne with ⟨m, hm⟩
  rcases real_min?_eq_some_iff.mp hm with ⟨hmem, hle⟩
  rcases List.mem_map.mp hmem with ⟨c0, hc0, hc0e⟩
  refine ⟨m / 1000, ?_, ⟨c0, hc0, ?_⟩, ?_⟩
  · simp [nearestDist, hm]
  · show m / 1000 = dist2D c0 (proj p) / 1000
    rw [hc0e]
  · intro c hc
    have hcle := hle _ (List.mem_map.mpr ⟨c, hc, rfl⟩)
    show m / 1000 ≤ dist2D c (proj p) / 1000
    gcongr

/-- Witness for C1: for the square region and the point 5000 m above its
centroid `(1,1)`, the assigned distance is 5 km, attained at that centroid
and minimal over the centroid list. -/
theorem nearest_dist_is_min_over_centroids_witness :
    ∃ d, (TurbineRow.mk ⟨1, 5001⟩ (some 5)).nearest_dist = some d ∧
      (∃ c ∈ cityCentroids id [[squareA]],
        d = dist2D c (TurbineRow.mk ⟨1, 5001⟩ (some 5)).geometry / 1000) ∧
      ∀ c ∈ cityCentroids id [[squareA]],
        d ≤ dist2D c (TurbineRow.mk ⟨1, 5001⟩ (some 5)).geometry / 1000 :=
  nearest_dist_is_min_over_centroids id [⟨1, 5001⟩] [[squareA]]
    (by simp) (by simp [squareA]) ⟨⟨1, 5001⟩, some 5⟩
    (by rw [pipeline_sq]; exact List.mem_singleton.mpr rfl)
